import Mathlib

/-!
Shallow embedding of the fluent-bit-go-s3 output plugin (files `s3.go` and
`out_s3.go`) and proofs about it.

Modelling conventions:
* Go strings are modelled as Lean `String`s; Go byte slices that interact with
  the record encoder are modelled as `String`s as well (a Go string and a Go
  byte slice are both raw byte sequences, and the conversion `string(b)`
  preserves the bytes).
* Machine integers are modelled as `Nat`/`Int`, with `% 2^32` where the gzip
  container truncates sizes.
* External collaborators (the AWS SDK credential providers, the S3 uploader,
  the time-zone database, and the DEFLATE compressor inside `compress/gzip`)
  are modelled as explicit function parameters ("oracles") passed to the
  embedded functions; the repository's own control flow around them is
  translated literally.
* A `time.Location` is modelled as a fixed UTC offset in seconds, and a
  `time.Time` as Unix seconds; `t.Local()` after `time.Local = loc` is
  modelled as formatting the civil fields of `unixSeconds + offset`.
-/

namespace FluentBitGoS3

/-- The `format` enumeration of `s3.go`: `plainTextFormat` and `gzipFormat`. -/
inductive format where
  | plainTextFormat
  | gzipFormat
deriving DecidableEq, Repr

export format (plainTextFormat gzipFormat)

/-- The logrus log levels (external collaborator `sirupsen/logrus`). -/
inductive Level where
  | panic
  | fatal
  | error
  | warn
  | info
  | debug
  | trace
deriving DecidableEq, Repr

/-- Model of `strconv.ParseBool`: accepts exactly the strings the Go standard
library accepts, returns `none` on anything else. -/
def ParseBool (s : String) : Option Bool :=
  match s with
  | "1" | "t" | "T" | "true" | "TRUE" | "True" => some true
  | "0" | "f" | "F" | "false" | "FALSE" | "False" => some false
  | _ => none

/-- ASCII lower-casing of a character (sufficient for the level names
`logrus.ParseLevel` recognises). -/
def lowerChar (c : Char) : Char :=
  if 'A' ≤ c ∧ c ≤ 'Z' then Char.ofNat (c.toNat + 32) else c

/-- ASCII model of `strings.ToLower`. -/
def strToLower (s : String) : String :=
  String.mk (s.data.map lowerChar)

/-- Model of `strings.HasSuffix`. -/
def strHasSuffix (s suffix : String) : Bool :=
  s.data.drop (s.data.length - suffix.data.length) == suffix.data

/-- Model of `logrus.ParseLevel`: lower-cases the input and matches the seven
recognised level names (with the `warning` alias). -/
def ParseLevel (lvl : String) : Option Level :=
  match strToLower lvl with
  | "panic" => some Level.panic
  | "fatal" => some Level.fatal
  | "error" => some Level.error
  | "warn" | "warning" => some Level.warn
  | "info" => some Level.info
  | "debug" => some Level.debug
  | "trace" => some Level.trace
  | _ => none

/-- A resolved AWS credential handle, tagged by the source that produced it
(`credentials.NewSharedCredentials`, `credentials.NewStaticCredentials`, or
`credentials.NewEnvCredentials`). -/
inductive Credentials where
  | shared (filename profile : String)
  | static (accessKeyID secretKey : String)
  | env
deriving DecidableEq, Repr

/-- Model of `s3PluginConfig.GetCredentials` in `s3.go`.  Whether each
provider's `Get()` call succeeds is decided by the oracles `sharedGet`
(shared-credential file, depends on the file path), `staticGet` (static
key pair) and `envGet` (process environment): these model the external AWS
SDK `credentials.Value` retrieval.  The branch structure is translated
literally from the source. -/
def GetCredentials (accessKeyID secretKey credential : String)
    (sharedGet : String → Bool) (staticGet : String → String → Bool)
    (envGet : Bool) : Except String Credentials :=
  if credential ≠ "" then
    -- creds = credentials.NewSharedCredentials(credential, "default")
    if sharedGet credential then
      Except.ok (Credentials.shared credential "default")
    else
      -- the error is printed and control falls through to the final return
      Except.error "Failed to create credentials"
  else if ¬(accessKeyID = "" ∧ secretKey = "") then
    -- creds = credentials.NewStaticCredentials(accessKeyID, secretKey, "")
    if staticGet accessKeyID secretKey then
      Except.ok (Credentials.static accessKeyID secretKey)
    else
      Except.error "Failed to create credentials"
  else
    -- creds = credentials.NewEnvCredentials()
    if envGet then
      Except.ok Credentials.env
    else
      Except.error "Failed to create credentials"

/-- Credential resolution written from the specification's words (section
"Credential Resolver"): evaluate sources in strict order, first success wins;
(1) if the credential file path is non-empty, load the "default" profile from
it; (2) else if at least one of access-key-ID / secret-key is non-empty, build
a static credential from the pair; (3) else derive ambient environment
credentials; accept a source if it yields a retrievable credential, and fail
with a configuration error if no attempted source does. -/
def specResolveCredentials (accessKeyID secretKey credentialFilePath : String)
    (sharedGet : String → Bool) (staticGet : String → String → Bool)
    (envGet : Bool) : Except String Credentials :=
  if credentialFilePath ≠ "" then
    if sharedGet credentialFilePath then
      Except.ok (Credentials.shared credentialFilePath "default")
    else
      Except.error "Failed to create credentials"
  else if accessKeyID ≠ "" ∨ secretKey ≠ "" then
    if staticGet accessKeyID secretKey then
      Except.ok (Credentials.static accessKeyID secretKey)
    else
      Except.error "Failed to create credentials"
  else
    if envGet then
      Except.ok Credentials.env
    else
      Except.error "Failed to create credentials"

/-- The `s3Config` structure of `s3.go` (pointer-typed Go fields are modelled
as plain values; the Go field `s3prefix` is called ` s3prefixStr` here). -/
structure s3Config where
  credentials : Credentials
  bucket : String
  s3prefixStr : String
  region : String
  compress : format
  endpoint : String
  logLevel : Level
  location : Int
  autoCreateBucket : Bool
deriving DecidableEq, Repr

/-- The compression-mode switch inside `getS3Config`:
`case "gzip": gzipFormat; default: plainTextFormat`. -/
def resolveCompress (compress : String) : format :=
  match compress with
  | "gzip" => gzipFormat
  | _ => plainTextFormat

/-- Model of `getS3Config` in `s3.go`, translated check by check in source
order.  `loadLocation` models `time.LoadLocation` (the external time-zone
database) and `localLoc` models `time.Local`. -/
def getS3Config (accessID secretKey credential s3prefixArg bucket region
    compress endpoint autoCreateBucket logLevel timeZone : String)
    (sharedGet : String → Bool) (staticGet : String → String → Bool)
    (envGet : Bool) (loadLocation : String → Option Int) (localLoc : Int) :
    Except String s3Config :=
  match GetCredentials accessID secretKey credential sharedGet staticGet envGet with
  | Except.error _ => Except.error "Failed to create credentials"
  | Except.ok creds =>
    if bucket = "" then
      Except.error "Cannot specify empty string to bucket name"
    else if s3prefixArg = "" then
      Except.error "Cannot specify empty string to s3prefix"
    else if region = "" then
      Except.error "Cannot specify empty string to region"
    else if endpoint ≠ "" ∧ strHasSuffix endpoint "amazonaws.com" then
      Except.error "Endpoint is not supported for AWS S3. This parameter is intended for S3 compatible services. Use Region instead."
    else
      -- strconv.ParseBool failure defaults to false without error
      let autoCreate := match ParseBool autoCreateBucket with
        | none => false
        | some b => b
      let logLevelStr := if logLevel = "" then "info" else logLevel
      match ParseLevel logLevelStr with
      | none => Except.error ("invalid log level: " ++ logLevelStr)
      | some level =>
        if timeZone ≠ "" then
          match loadLocation timeZone with
          | none => Except.error ("invalid timeZone: " ++ timeZone)
          | some loc =>
            Except.ok
              { credentials := creds, bucket := bucket,
                s3prefixStr := s3prefixArg, region := region,
                compress := resolveCompress compress, endpoint := endpoint,
                logLevel := level, location := loc,
                autoCreateBucket := autoCreate }
        else
          Except.ok
            { credentials := creds, bucket := bucket,
              s3prefixStr := s3prefixArg, region := region,
              compress := resolveCompress compress, endpoint := endpoint,
              logLevel := level, location := localLoc,
              autoCreateBucket := autoCreate }

/-! ### Time and object-key generation (`out_s3.go`) -/

/-- Civil date (year, month, day) of a day count relative to 1970-01-01, for
the proleptic Gregorian calendar.  This models the calendar computation behind
`time.Time.Format` for the date verbs used by the plugin. -/
def civilFromDays (z : Int) : Int × Int × Int :=
  let z' := z + 719468
  let era := z'.ediv 146097
  let doe := z'.emod 146097
  let yoe := (doe - doe.ediv 1460 + doe.ediv 36524 - doe.ediv 146096).ediv 365
  let y := yoe + era * 400
  let doy := doe - (365 * yoe + yoe.ediv 4 - yoe.ediv 100)
  let mp := (5 * doy + 2).ediv 153
  let d := doy - (153 * mp + 2).ediv 5 + 1
  let m := mp + (if mp < 10 then 3 else -9)
  (y + (if m ≤ 2 then 1 else 0), m, d)

/-- Civil date-time fields (year, month, day, hour, minute, second) of a Unix
time in seconds. -/
def civilOfUnix (secs : Int) : Int × Int × Int × Int × Int × Int :=
  let days := secs.ediv 86400
  let sod := secs.emod 86400
  let c := civilFromDays days
  (c.1, c.2.1, c.2.2, sod.ediv 3600, (sod.emod 3600).ediv 60, sod.emod 60)

/-- Left-pads the decimal representation of a non-negative integer with zeros
to the given width, as Go's time formatting does for the verbs `2006`, `01`,
`02`, `15`, `04`, `05`. -/
def padNum (width : Nat) (n : Int) : String :=
  let s := toString n
  if s.length < width then
    String.mk (List.replicate (width - s.length) '0') ++ s
  else s

/-- Go time format `20060102`: date as YYYYMMDD in the given instant's civil
fields. -/
def formatDate (secs : Int) : String :=
  let c := civilOfUnix secs
  padNum 4 c.1 ++ padNum 2 c.2.1 ++ padNum 2 c.2.2.1

/-- Go time format `15`: zero-padded 24-hour hour. -/
def formatHour (secs : Int) : String :=
  padNum 2 (civilOfUnix secs).2.2.2.1

/-- Go time format `20060102150405`: timestamp as YYYYMMDDHHMMSS. -/
def formatTimestamp (secs : Int) : String :=
  let c := civilOfUnix secs
  padNum 4 c.1 ++ padNum 2 c.2.1 ++ padNum 2 c.2.2.1 ++
    padNum 2 c.2.2.2.1 ++ padNum 2 c.2.2.2.2.1 ++ padNum 2 c.2.2.2.2.2

/-- Splits a character list at `/` separators (the separator handling of
`strings.Split(s, "/")`). -/
def splitSlash (l : List Char) : List (List Char) :=
  match l with
  | [] => [[]]
  | c :: rest =>
    let r := splitSlash rest
    if c = '/' then [] :: r
    else (c :: r.headD []) :: r.tail

/-- One step of `path.Clean`'s element processing: the output stack after
seeing one path element.  `".."` pops a non-`".."` top, is dropped at an empty
stack when the path is rooted, and is kept otherwise; `""` and `"."` are
dropped; everything else is pushed. -/
def cleanPush (rooted : Bool) (out : List String) (c : String) : List String :=
  if c = "" ∨ c = "." then out
  else if c = ".." then
    match out.getLast? with
    | some last => if last = ".." then out ++ [".."] else out.dropLast
    | none => if rooted then [] else [".."]
  else out ++ [c]

/-- Model of Go `path/filepath.Clean` (on slash-separated paths): lexical
simplification removing `.` elements, empty elements, and `..` elements
together with the preceding non-`..` element. -/
def pathClean (path : String) : String :=
  match path.data with
  | [] => "."
  | first :: _ =>
    let rooted := first = '/'
    let comps := (splitSlash path.data).map String.mk
    let out := comps.foldl (cleanPush rooted) []
    let joined := String.intercalate "/" out
    if rooted then "/" ++ joined
    else if joined = "" then "." else joined

/-- Model of Go `path/filepath.Join`: drop leading empty elements, join the
rest with `/`, and clean the result; all elements empty gives `""`. -/
def filepathJoin (elem : List String) : String :=
  match elem with
  | [] => ""
  | e :: rest =>
    if e = "" then filepathJoin rest
    else pathClean (String.intercalate "/" (e :: rest))

/-- The `s3operator` structure of `out_s3.go`, restricted to the fields the
embedded operations read (`uploader` and `logger` are external collaborators
modelled as oracles at the call sites; the Go field `prefix` is called
` prefixStr` here). -/
structure s3operator where
  bucket : String
  prefixStr : String
  compressFormat : format
  location : Int
deriving DecidableEq, Repr

/-- Model of `GenerateObjectKey` in `out_s3.go`: picks the file extension from
the compression format, converts `t` to the operator's configured location
(the source assigns `time.Local = s3operator.location` and then formats
`t.Local()`), formats timestamp, date and hour, and joins
prefix/date/hour/fileName. -/
def GenerateObjectKey (op : s3operator) (t : Int) : String :=
  let fileext := match op.compressFormat with
    | plainTextFormat => ".log"
    | gzipFormat => ".log.gz"
  let localSecs := t + op.location
  let timestamp := formatTimestamp localSecs
  let date := formatDate localSecs
  let hour := formatHour localSecs
  let fileName := String.join [timestamp, fileext]
  filepathJoin [op.prefixStr, date, hour, fileName]

/-! ### Record encoding (`encodeJSON` / `createJSON` in `out_s3.go`)

A decoded log record is a nested mapping from textual field names to
dynamically typed values (the specification's LogRecord data model: scalar,
byte-sequence, or nested mapping of the same shape).  Maps are modelled as
association lists; `unsupported` models a dynamic value the JSON marshaller
rejects (such as a Go channel or function value), which is what makes
`jsoniter.Marshal` fallible. -/

/-- A dynamically typed record value (`interface\x7b\x7d` in the Go source). -/
inductive IValue where
  | str (s : String)
  | bytes (b : String)
  | int (n : Int)
  | bool (b : Bool)
  | imap (m : List (String × IValue))
  | unsupported
deriving Repr

/-- A JSON-marshallable value (the shape of the `map[string]interface\x7b\x7d`
built by `encodeJSON`). -/
inductive JValue where
  | str (s : String)
  | int (n : Int)
  | bool (b : Bool)
  | jmap (m : List (String × JValue))
  | unsupported
deriving Repr

/-- One decoded log record: the `map[interface\x7b\x7d]interface\x7b\x7d`
handed over by the ingestion framework, with textual keys. -/
abbrev Record := List (String × IValue)

mutual

/-- The per-value rule of `encodeJSON`: byte sequences become text, nested
mappings are encoded recursively, everything else passes through unchanged. -/
def encodeValue : IValue → JValue
  | IValue.str s => JValue.str s
  | IValue.bytes b => JValue.str b -- prevent encoding to base64
  | IValue.int n => JValue.int n
  | IValue.bool b => JValue.bool b
  | IValue.imap m => JValue.jmap (encodeJSON m)
  | IValue.unsupported => JValue.unsupported

/-- Model of `encodeJSON` in `out_s3.go`: walks the record entry by entry,
applying the per-value rule. -/
def encodeJSON : List (String × IValue) → List (String × JValue)
  | [] => []
  | (k, v) :: rest => (k, encodeValue v) :: encodeJSON rest

end

/-- JSON string quoting for the marshaller model: standard JSON escapes for
quote, backslash and control characters. -/
def jsonQuoteChar (c : Char) : String :=
  if c = '"' then "\\\""
  else if c = '\\' then "\\\\"
  else if c = '\n' then "\\n"
  else if c = '\t' then "\\t"
  else if c = '\r' then "\\r"
  else if c.toNat < 32 then
    "\\u00" ++ String.mk [Nat.digitChar (c.toNat / 16), Nat.digitChar (c.toNat % 16)]
  else String.mk [c]

/-- Quotes a string as a JSON string literal. -/
def jsonQuote (s : String) : String :=
  "\"" ++ String.join (s.data.map jsonQuoteChar) ++ "\""

mutual

/-- Model of the external `jsoniter.Marshal` on the values `encodeJSON`
produces: serialises scalars and objects, and fails on an unsupported value
kind. -/
def jsonMarshal : JValue → Except String String
  | JValue.str s => Except.ok (jsonQuote s)
  | JValue.int n => Except.ok (toString n)
  | JValue.bool b => Except.ok (if b then "true" else "false")
  | JValue.unsupported => Except.error "unsupported type"
  | JValue.jmap m =>
    match jsonMarshalFields m with
    | Except.error e => Except.error e
    | Except.ok fields =>
      Except.ok ("\x7b" ++ String.intercalate "," fields ++ "\x7d")

/-- Serialises the fields of a JSON object in order. -/
def jsonMarshalFields : List (String × JValue) → Except String (List String)
  | [] => Except.ok []
  | (k, v) :: rest =>
    match jsonMarshal v with
    | Except.error e => Except.error e
    | Except.ok s =>
      match jsonMarshalFields rest with
      | Except.error e => Except.error e
      | Except.ok r => Except.ok ((jsonQuote k ++ ":" ++ s) :: r)

end

/-- Model of `createJSON` in `out_s3.go`: encode, then marshal; on a marshal
failure the Go function returns `("\x7b\x7d", err)` and its caller uses only
the error, modelled by the `Except.error` branch. -/
def createJSON (record : Record) : Except String String :=
  jsonMarshal (JValue.jmap (encodeJSON record))

/-! ### Flush and upload (`FLBPluginFlushCtx` / `fluentPlugin.Put`) -/

/-- Return codes of the fluent-bit-go `output` package. -/
def FLB_ERROR : Nat := 0

/-- Success return code: data have been processed. -/
def FLB_OK : Nat := 1

/-- Retry return code: retry to flush later. -/
def FLB_RETRY : Nat := 2

/-- The body handed to `s3manager.Uploader.Upload`: a string reader for plain
text, a bytes reader for compressed payloads. -/
inductive Body where
  | text (s : String)
  | binary (b : List Nat)
deriving DecidableEq, Repr

/-- One `s3manager.UploadInput`: bucket, object key and body. -/
structure UploadInput where
  bucket : String
  key : String
  body : Body
deriving DecidableEq, Repr

/-- Model of `fluentPlugin.Put` in `out_s3.go`.  `mkGzip` models the
`makeGzip` call on the line's bytes (its possible failure comes from the
underlying gzip writer, an external collaborator), `upload` models the S3
uploader and returns an error message when the upload fails.  The first
component of the result is the list of upload calls performed. -/
def Put (op : s3operator) (mkGzip : String → Except String (List Nat))
    (upload : UploadInput → Option String) (objectKey : String)
    (_timestamp : Int) (line : String) : List UploadInput × Option String :=
  match op.compressFormat with
  | plainTextFormat =>
    let inp : UploadInput := ⟨op.bucket, objectKey, Body.text line⟩
    ([inp], upload inp)
  | gzipFormat =>
    match mkGzip line with
    | Except.error e => ([], some e)
    | Except.ok compressed =>
      let inp : UploadInput := ⟨op.bucket, objectKey, Body.binary compressed⟩
      ([inp], upload inp)

/-- The record loop of `FLBPluginFlushCtx`: each record that encodes
successfully appends its line and a newline to `lines`; an encode failure is
logged and skipped. -/
def linesOf (records : List Record) : String :=
  records.foldl
    (fun acc record =>
      match createJSON record with
      | Except.error _ => acc -- log a warning and continue
      | Except.ok line => acc ++ line ++ "\n")
    ""

/-- Model of `FLBPluginFlushCtx` in `out_s3.go`: build the newline-terminated
payload from the decoded records, generate the object key for the current
time, perform the put, and map a put error to `FLB_RETRY` and success to
`FLB_OK`.  Returns the upload calls performed and the return code. -/
def FLBPluginFlushCtx (op : s3operator)
    (mkGzip : String → Except String (List Nat))
    (upload : UploadInput → Option String) (records : List Record)
    (now : Int) : List UploadInput × Nat :=
  let lines := linesOf records
  let objectKey := GenerateObjectKey op now
  let put := Put op mkGzip upload objectKey now lines
  match put.2 with
  | some _ => (put.1, FLB_RETRY) -- error sending message for S3
  | none => (put.1, FLB_OK)

/-! ### The gzip container (`makeGzip` in `out_s3.go`)

`makeGzip` wraps the payload in an RFC 1952 gzip member with the fixed member
name `fluent-bit-go-s3` and the current wall-clock time as modification time.
The DEFLATE compressor and the CRC-32 checksum live in the external
`compress/gzip` package; they are modelled as the parameters `deflate`
(with its decoder `inflate`) and `crc32`. -/

/-- Little-endian 32-bit encoding of a natural number. -/
def le32 (n : Nat) : List Nat :=
  [n % 256, n / 256 % 256, n / 65536 % 256, n / 16777216 % 256]

/-- Byte content of an ASCII string (the member name is ASCII). -/
def asciiBytes (s : String) : List Nat :=
  s.data.map Char.toNat

/-- Model of `makeGzip` (success path): the RFC 1952 member produced by a
`gzip.Writer` with `Name = "fluent-bit-go-s3"` and `ModTime` set: magic bytes,
compression method 8, the FNAME flag, the modification time, extra-flags and
OS bytes, the zero-terminated member name, the DEFLATE stream, and the CRC-32
and length trailer. -/
def makeGzip (deflate : List Nat → List Nat) (crc32 : List Nat → Nat)
    (modTime : Nat) (body : List Nat) : List Nat :=
  [31, 139, 8, 8] ++ le32 (modTime % 4294967296) ++ [0, 255] ++
    asciiBytes "fluent-bit-go-s3" ++ [0] ++
    deflate body ++
    le32 (crc32 body % 4294967296) ++ le32 (body.length % 4294967296)

/-- Skips bytes up to and including the first zero byte (the zero-terminated
FNAME field of a gzip header). -/
def skipZeroTerminated : List Nat → Option (List Nat)
  | [] => none
  | 0 :: rest => some rest
  | _ :: rest => skipZeroTerminated rest

/-- A gzip decompressor over the member layout written by `makeGzip`: checks
the magic bytes and compression method, skips the modification time,
extra-flags, OS and (when the FNAME flag is set) the member name, inflates the
DEFLATE stream, and checks the CRC-32 and length trailer. -/
def gunzip (inflate : List Nat → Option (List Nat × List Nat))
    (crc32 : List Nat → Nat) (g : List Nat) : Option (List Nat) :=
  match g with
  | 31 :: 139 :: 8 :: flg :: _m0 :: _m1 :: _m2 :: _m3 :: _xfl :: _os :: rest =>
    let afterName := if flg % 16 / 8 = 1 then skipZeroTerminated rest else some rest
    match afterName with
    | none => none
    | some compressed =>
      match inflate compressed with
      | none => none
      | some (payload, trailer) =>
        if trailer = le32 (crc32 payload % 4294967296) ++
            le32 (payload.length % 4294967296) then
          some payload
        else none
  | _ => none

/-! ### Auxiliary notions used by the theorems -/

/-- First value bound to a key in an association list (Go map lookup under the
distinct-keys invariant of a decoded map). -/
def lookupKey {α : Type} : List (String × α) → String → Option α
  | [], _ => none
  | (k, v) :: rest, key => if k = key then some v else lookupKey rest key

/-- Value at a key path inside a nested record: follows nested mappings for
the leading keys and returns the value at the final key. -/
def ilookup : List (String × IValue) → List String → Option IValue
  | _, [] => none
  | r, [k] => lookupKey r k
  | r, k :: rest =>
    match lookupKey r k with
    | some (IValue.imap m) => ilookup m rest
    | _ => none

/-- Value at a key path inside an encoded record, following nested JSON
objects. -/
def jlookup : List (String × JValue) → List String → Option JValue
  | _, [] => none
  | r, [k] => lookupKey r k
  | r, k :: rest =>
    match lookupKey r k with
    | some (JValue.jmap m) => jlookup m rest
    | _ => none

/-- Payload description written from the amended claim's words: each
successfully encoded record followed by a newline, concatenated in order; a
record whose encoding fails contributes nothing. -/
def specLines : List Record → String
  | [] => ""
  | r :: rest =>
    match createJSON r with
    | Except.error _ => specLines rest
    | Except.ok line => line ++ "\n" ++ specLines rest

/-- Claim-side payload description: the successfully encoded records joined
with newline separators (no trailing newline on a non-empty batch). -/
def claimLines (records : List Record) : String :=
  String.intercalate "\n" (records.filterMap (fun r => (createJSON r).toOption))

/-- A concrete self-delimiting compression scheme (unary length prefix) used
to instantiate the abstract DEFLATE parameters: `deflate` output determines
where the compressed stream ends, as a real DEFLATE stream does. -/
def unaryDeflate (x : List Nat) : List Nat :=
  List.replicate x.length 1 ++ 0 :: x

/-- Counts the leading `1` bytes of a list and returns the remainder. -/
def countOnes : List Nat → Nat × List Nat
  | 1 :: rest =>
    let r := countOnes rest
    (r.1 + 1, r.2)
  | l => (0, l)

/-- Decoder for `unaryDeflate`: reads the unary length, the `0` delimiter, and
then that many payload bytes, returning the payload and the remaining input. -/
def unaryInflate (l : List Nat) : Option (List Nat × List Nat) :=
  match countOnes l with
  | (n, 0 :: rest) =>
    if n ≤ rest.length then some (rest.take n, rest.drop n) else none
  | _ => none

/-! ### Theorems -/

/-- C1: for every sink configuration and timestamp, `GenerateObjectKey` is
deterministic and returns the path join of the prefix, the date `YYYYMMDD`,
the hour `HH` (24-hour, zero-padded), and a file name consisting of the
timestamp `YYYYMMDDHHMMSS` followed by `.log` in plain mode and `.log.gz` in
gzip mode, with the timestamp converted to the configured time zone before
formatting; in particular prefix `logs` at local time 2024-03-05T08:07:09
under plain mode yields exactly `logs/20240305/08/20240305080709.log`. -/
theorem generate_object_key_layout (op : s3operator) (t t' : Int)
    (hdet : t = t') :
    GenerateObjectKey op t = GenerateObjectKey op t' ∧
    GenerateObjectKey op t =
      filepathJoin [op.prefixStr, formatDate (t + op.location),
        formatHour (t + op.location),
        formatTimestamp (t + op.location) ++
          (match op.compressFormat with
           | plainTextFormat => ".log"
           | gzipFormat => ".log.gz")] ∧
    GenerateObjectKey ⟨"", "logs", plainTextFormat, 0⟩ 1709626029 =
      "logs/20240305/08/20240305080709.log" := by
  subst hdet
  refine ⟨rfl, ?_, by decide⟩
  obtain ⟨b, p, f, loc⟩ := op
  cases f <;> rfl

/-- Witness for C1 at a concrete configuration and timestamp. -/
theorem generate_object_key_layout_witness :
    GenerateObjectKey ⟨"", "logs", plainTextFormat, 0⟩ 1709626029 =
      "logs/20240305/08/20240305080709.log" :=
  (generate_object_key_layout ⟨"", "logs", plainTextFormat, 0⟩ 0 0 rfl).2.2

/-- C4: credential resolution evaluates sources in strict order — the
"default" profile of the credential file when the path is non-empty, otherwise
a static credential when at least one of the key strings is non-empty,
otherwise ambient environment credentials — accepting the attempted source
exactly when it yields a retrievable credential and failing with the
configuration error otherwise.  Stated as equality with a resolver written
from the specification's words. -/
theorem credentials_resolution_order (accessKeyID secretKey credential : String)
    (sharedGet : String → Bool) (staticGet : String → String → Bool)
    (envGet : Bool) :
    GetCredentials accessKeyID secretKey credential sharedGet staticGet envGet =
      specResolveCredentials accessKeyID secretKey credential sharedGet
        staticGet envGet := by
  unfold GetCredentials specResolveCredentials
  by_cases hc : credential = "" <;>
    by_cases ha : accessKeyID = "" <;>
    by_cases hs : secretKey = "" <;>
    simp [hc, ha, hs]

/-- C10: when the credential file path is non-empty and the "default" profile
is not retrievable from it, resolution fails with the configuration error
without attempting the static-key or environment sources: the result does not
depend on the static or environment oracles at all, even when a non-empty
key pair was supplied. -/
theorem shared_credentials_no_fallback (accessKeyID secretKey credential : String)
    (sharedGet : String → Bool) (staticGet staticGet' : String → String → Bool)
    (envGet envGet' : Bool) (hc : credential ≠ "") :
    GetCredentials accessKeyID secretKey credential sharedGet staticGet envGet =
      GetCredentials accessKeyID secretKey credential sharedGet staticGet'
        envGet' ∧
    (sharedGet credential = false →
      GetCredentials accessKeyID secretKey credential sharedGet staticGet
        envGet = Except.error "Failed to create credentials") := by
  unfold GetCredentials
  constructor
  · simp [hc]
  · intro hshared
    simp [hc, hshared]

/-- Witness for C10: a retrievable static pair is supplied, but a failing
credential file still makes resolution fail. -/
theorem shared_credentials_no_fallback_witness :
    GetCredentials "AKIAEXAMPLE" "secret" "/root/credfile" (fun _ => false)
      (fun _ _ => true) true = Except.error "Failed to create credentials" :=
  (shared_credentials_no_fallback "AKIAEXAMPLE" "secret" "/root/credfile"
    (fun _ => false) (fun _ _ => true) (fun _ _ => true) true true
    (by decide)).2 rfl

/-- C2: for every flush, the return code is never `FLB_ERROR`; it is `FLB_OK`
exactly when the put (including, in gzip mode, the compression step inside it)
reported no error, and `FLB_RETRY` otherwise. -/
theorem flush_outcome (op : s3operator)
    (mkGzip : String → Except String (List Nat))
    (upload : UploadInput → Option String) (records : List Record)
    (now : Int) :
    ((FLBPluginFlushCtx op mkGzip upload records now).2 = FLB_OK ∨
      (FLBPluginFlushCtx op mkGzip upload records now).2 = FLB_RETRY) ∧
    (FLBPluginFlushCtx op mkGzip upload records now).2 ≠ FLB_ERROR ∧
    ((FLBPluginFlushCtx op mkGzip upload records now).2 = FLB_OK ↔
      (Put op mkGzip upload (GenerateObjectKey op now) now
        (linesOf records)).2 = none) := by
  unfold FLBPluginFlushCtx
  cases h : (Put op mkGzip upload (GenerateObjectKey op now) now
      (linesOf records)).2 <;>
    simp [h, FLB_OK, FLB_RETRY, FLB_ERROR]

/-- Witness for C2 at a concrete flush whose upload fails. -/
theorem flush_outcome_witness :
    (FLBPluginFlushCtx ⟨"bucket", "logs", plainTextFormat, 0⟩
        (fun _ => Except.ok []) (fun _ => some "upload failed") [] 0).2 =
      FLB_OK ∨
    (FLBPluginFlushCtx ⟨"bucket", "logs", plainTextFormat, 0⟩
        (fun _ => Except.ok []) (fun _ => some "upload failed") [] 0).2 =
      FLB_RETRY :=
  (flush_outcome ⟨"bucket", "logs", plainTextFormat, 0⟩ (fun _ => Except.ok [])
    (fun _ => some "upload failed") [] 0).1

/-- The record-loop fold yields the accumulator followed by the
newline-terminated encodings. -/
theorem linesOf_foldl (records : List Record) :
    ∀ acc : String,
      records.foldl
        (fun acc record =>
          match createJSON record with
          | Except.error _ => acc
          | Except.ok line => acc ++ line ++ "\n")
        acc = acc ++ specLines records := by
  induction records with
  | nil => intro acc; simp [specLines]
  | cons r rest ih =>
    intro acc
    cases h : createJSON r with
    | error e => simp only [List.foldl_cons, specLines, h]; exact ih acc
    | ok line =>
      simp only [List.foldl_cons, specLines, h]
      rw [ih]
      simp [String.append_assoc]

/-- The payload built by the flush loop is exactly the concatenation of the
newline-terminated successful encodings. -/
theorem linesOf_eq_specLines (records : List Record) :
    linesOf records = specLines records := by
  have h := linesOf_foldl records ""
  simpa [linesOf] using h

/-- C3 counterexample: with a single record that encodes successfully, the
uploaded payload is the encoded record followed by a newline, not the
records "joined with newline separators" (which would have no trailing
newline). -/
theorem flush_payload_counterexample :
    (FLBPluginFlushCtx ⟨"bucket", "logs", plainTextFormat, 0⟩
        (fun _ => Except.ok []) (fun _ => none) [[("a", IValue.int 1)]]
        0).1.map UploadInput.body ≠
      [Body.text (claimLines [[("a", IValue.int 1)]])] := by
  decide

/-- C3 (amended): every flush performs exactly one put-object call (provided
the gzip compression step inside the put does not fail), whose payload is
the concatenation of each successfully encoded record followed by a newline
(so a non-empty batch ends with a trailing newline); a record whose encoding
fails is skipped, and a flush with zero successfully-encoded records still
performs exactly one put-object call with an empty payload (or its compressed
form). -/
theorem flush_single_put (op : s3operator)
    (mkGzip : String → Except String (List Nat))
    (upload : UploadInput → Option String) (records : List Record)
    (now : Int) (gz : List Nat)
    (hgz : mkGzip (linesOf records) = Except.ok gz) :
    (FLBPluginFlushCtx op mkGzip upload records now).1 =
      [⟨op.bucket, GenerateObjectKey op now,
        match op.compressFormat with
        | plainTextFormat => Body.text (specLines records)
        | gzipFormat => Body.binary gz⟩] ∧
    linesOf records = specLines records := by
  refine ⟨?_, linesOf_eq_specLines records⟩
  rw [linesOf_eq_specLines] at hgz
  simp only [FLBPluginFlushCtx, Put, linesOf_eq_specLines]
  cases hf : op.compressFormat with
  | plainTextFormat =>
    simp only [hf]
    cases upload ⟨op.bucket, GenerateObjectKey op now,
      Body.text (specLines records)⟩ <;> rfl
  | gzipFormat =>
    simp only [hf, hgz]
    cases upload ⟨op.bucket, GenerateObjectKey op now,
      Body.binary gz⟩ <;> rfl

/-- Witness for C3: an empty batch still performs exactly one put-object call,
with an empty payload. -/
theorem flush_single_put_witness :
    (FLBPluginFlushCtx ⟨"bucket", "logs", plainTextFormat, 0⟩
        (fun _ => Except.ok []) (fun _ => none) [] 0).1 =
      [⟨"bucket", GenerateObjectKey ⟨"bucket", "logs", plainTextFormat, 0⟩ 0,
        Body.text ""⟩] :=
  (flush_single_put ⟨"bucket", "logs", plainTextFormat, 0⟩
    (fun _ => Except.ok []) (fun _ => none) [] 0 [] rfl).1

/-- Association-list lookup commutes with the encoding of a record. -/
theorem lookupKey_encodeJSON (r : List (String × IValue)) (k : String) :
    lookupKey (encodeJSON r) k = (lookupKey r k).map encodeValue := by
  induction r with
  | nil => rfl
  | cons kv rest ih =>
    obtain ⟨k', v⟩ := kv
    by_cases h : k' = k <;> simp [encodeJSON, lookupKey, h, ih]

/-- The value at any key path of an encoded record is the encoding of the
value at that path of the original record. -/
theorem ilookup_encodeJSON (path : List String) :
    ∀ (r : List (String × IValue)) (v : IValue),
      ilookup r path = some v →
      jlookup (encodeJSON r) path = some (encodeValue v) := by
  induction path with
  | nil => intro r v h; simp [ilookup] at h
  | cons k rest ih =>
    intro r v h
    cases rest with
    | nil =>
      simp only [ilookup] at h
      simp only [jlookup, lookupKey_encodeJSON, h]
      rfl
    | cons k' rest' =>
      simp only [ilookup] at h
      cases hk : lookupKey r k with
      | none => rw [hk] at h; simp at h
      | some w =>
        rw [hk] at h
        cases w with
        | imap m =>
          simp only [jlookup, lookupKey_encodeJSON, hk, Option.map_some,
            encodeValue]
          exact ih m v h
        | str s => simp at h
        | bytes b => simp at h
        | int n => simp at h
        | bool b => simp at h
        | unsupported => simp at h

/-- C5: record encoding converts byte-sequence values to text values at every
nesting depth (the same bytes, not a base64 form), recursively encodes nested
mappings with the same rule, and passes every other value kind through
unchanged: at any key path, a byte-sequence or text value appears in the
encoded record as a text value with identical content, integer and boolean
scalars appear unchanged, and a nested mapping appears as the recursively
encoded mapping. -/
theorem encode_preserves_values (r : List (String × IValue))
    (path : List String) :
    (∀ b, ilookup r path = some (IValue.bytes b) →
      jlookup (encodeJSON r) path = some (JValue.str b)) ∧
    (∀ s, ilookup r path = some (IValue.str s) →
      jlookup (encodeJSON r) path = some (JValue.str s)) ∧
    (∀ n, ilookup r path = some (IValue.int n) →
      jlookup (encodeJSON r) path = some (JValue.int n)) ∧
    (∀ b, ilookup r path = some (IValue.bool b) →
      jlookup (encodeJSON r) path = some (JValue.bool b)) ∧
    (∀ m, ilookup r path = some (IValue.imap m) →
      jlookup (encodeJSON r) path = some (JValue.jmap (encodeJSON m))) := by
  refine ⟨?_, ?_, ?_, ?_, ?_⟩ <;> intro x h <;>
    exact ilookup_encodeJSON path r _ h

/-- Witness for C5: a byte-sequence value nested two mappings deep is encoded
as a text value with the same content. -/
theorem encode_preserves_values_witness :
    jlookup (encodeJSON [("top", IValue.imap [("payload", IValue.bytes "raw"),
        ("n", IValue.int 7)])]) ["top", "payload"] =
      some (JValue.str "raw") :=
  (encode_preserves_values [("top", IValue.imap [("payload", IValue.bytes "raw"),
    ("n", IValue.int 7)])] ["top", "payload"]).1 "raw" rfl

/-- Counting the leading ones of a unary length prefix recovers the length. -/
theorem countOnes_replicate (n : Nat) (t : List Nat) :
    countOnes (List.replicate n 1 ++ 0 :: t) = (n, 0 :: t) := by
  induction n with
  | zero => rfl
  | succ k ih =>
    simp only [List.replicate_succ, List.cons_append, countOnes]
    have ih' : countOnes ((List.replicate k 1).append (0 :: t)) = (k, 0 :: t) := ih
    rw [ih']

/-- The unary-length coder satisfies the self-delimiting stream-decoding
contract assumed of the DEFLATE coder pair. -/
theorem unaryInflate_unaryDeflate (x rest : List Nat) :
    unaryInflate (unaryDeflate x ++ rest) = some (x, rest) := by
  unfold unaryInflate unaryDeflate
  rw [List.append_assoc, List.cons_append, countOnes_replicate]
  simp [List.length_append, List.take_left, List.drop_left]

/-- Skipping the zero-terminated member name written by `makeGzip` leaves
exactly the bytes after the terminator. -/
theorem skipZeroTerminated_memberName (X : List Nat) :
    skipZeroTerminated (asciiBytes "fluent-bit-go-s3" ++ 0 :: X) = some X :=
  rfl

/-- Unfolding of `gunzip` on a byte list with the member header present. -/
theorem gunzip_header (inflate : List Nat → Option (List Nat × List Nat))
    (crc32 : List Nat → Nat) (flg t0 t1 t2 t3 xfl os : Nat)
    (rest : List Nat) :
    gunzip inflate crc32
        (31 :: 139 :: 8 :: flg :: t0 :: t1 :: t2 :: t3 :: xfl :: os :: rest) =
      (match (if flg % 16 / 8 = 1 then skipZeroTerminated rest
          else some rest) with
       | none => none
       | some compressed =>
         match inflate compressed with
         | none => none
         | some (payload, trailer) =>
           if trailer = le32 (crc32 payload % 4294967296) ++
               le32 (payload.length % 4294967296) then
             some payload
           else none) :=
  rfl

/-- C9: for every byte payload, decompressing the output of the gzip
compressor reproduces the exact input bytes, for every modification time the
compressor records (and with the fixed archive member name it sets), given
a DEFLATE coder pair `deflate`/`inflate` satisfying the self-delimiting
stream-decoding contract of the external `compress/flate` library. -/
theorem makeGzip_roundtrip (deflate : List Nat → List Nat)
    (inflate : List Nat → Option (List Nat × List Nat))
    (crc32 : List Nat → Nat) (modTime : Nat) (body : List Nat)
    (hinf : ∀ x rest, inflate (deflate x ++ rest) = some (x, rest)) :
    gunzip inflate crc32 (makeGzip deflate crc32 modTime body) = some body := by
  unfold makeGzip
  simp only [le32, List.cons_append, List.nil_append, List.append_assoc]
  rw [gunzip_header]
  norm_num
  rw [skipZeroTerminated_memberName]
  simp only [hinf]
  simp [le32]
  exact ⟨(Nat.mod_mod_of_dvd _ (by norm_num)).symm,
    (Nat.mod_mod_of_dvd _ (by norm_num)).symm⟩

/-- Witness for C9: the round trip evaluated with a concrete self-delimiting
coder, checksum function, modification time and payload. -/
theorem makeGzip_roundtrip_witness :
    gunzip unaryInflate List.length
        (makeGzip unaryDeflate List.length 1709626029 [5, 0, 300]) =
      some [5, 0, 300] :=
  makeGzip_roundtrip unaryDeflate unaryInflate List.length 1709626029
    [5, 0, 300] unaryInflate_unaryDeflate

/-- Any compression string other than exactly `"gzip"` resolves to plain
mode. -/
theorem resolveCompress_ne_gzip (s : String) (h : s ≠ "gzip") :
    resolveCompress s = plainTextFormat := by
  unfold resolveCompress
  split
  · simp_all
  · rfl

/-- C6: for every configuration, the compression-mode string resolves to gzip
mode exactly when it equals `"gzip"`; the built configuration's compression
mode is exactly this resolution, and the compression string never causes a
configuration error (configuration building succeeds or fails identically for
any two compression strings). -/
theorem compress_mode_resolution (accessID secretKey credential pre bucket
    region compress compress' endp acb ll tz : String)
    (sg : String → Bool) (st : String → String → Bool) (ev : Bool)
    (lo : String → Option Int) (loc : Int) :
    (resolveCompress compress = gzipFormat ↔ compress = "gzip") ∧
    (getS3Config accessID secretKey credential pre bucket region compress endp
        acb ll tz sg st ev lo loc).map s3Config.compress =
      (getS3Config accessID secretKey credential pre bucket region compress
        endp acb ll tz sg st ev lo loc).map (fun _ => resolveCompress compress) ∧
    (getS3Config accessID secretKey credential pre bucket region compress endp
        acb ll tz sg st ev lo loc).isOk =
      (getS3Config accessID secretKey credential pre bucket region compress'
        endp acb ll tz sg st ev lo loc).isOk := by
  refine ⟨?_, ?_⟩
  · constructor
    · intro h
      by_cases hc : compress = "gzip"
      · exact hc
      · rw [resolveCompress_ne_gzip compress hc] at h
        cases h
    · intro h
      subst h
      rfl
  · unfold getS3Config
    cases GetCredentials accessID secretKey credential sg st ev with
    | error e => exact ⟨rfl, rfl⟩
    | ok creds =>
      by_cases hb : bucket = ""
      · simp [hb, Except.map, Except.isOk]
      · by_cases hp : pre = ""
        · simp [hb, hp, Except.map, Except.isOk]
        · by_cases hr : region = ""
          · simp [hb, hp, hr, Except.map, Except.isOk]
          · by_cases he : endp ≠ "" ∧ strHasSuffix endp "amazonaws.com" = true
            · simp [hb, hp, hr, he, Except.map, Except.isOk]
            · cases hpl : ParseLevel (if ll = "" then "info" else ll) with
              | none => simp [hb, hp, hr, he, hpl, Except.map, Except.isOk]
              | some lvl =>
                by_cases ht : tz ≠ ""
                · cases hlo : lo tz with
                  | none => simp [hb, hp, hr, he, hpl, ht, hlo, Except.map, Except.isOk]
                  | some l =>
                    simp [hb, hp, hr, he, hpl, ht, hlo, Except.map, Except.isOk]
                    rfl
                · simp [hb, hp, hr, he, hpl, ht, Except.map, Except.isOk]
                  rfl

/-- Witness for C6: the iff instantiated at the string `"gzip"`. -/
theorem compress_mode_resolution_witness :
    resolveCompress "gzip" = gzipFormat :=
  (compress_mode_resolution "" "" "" "p" "b" "r" "gzip" "" "" "" "" ""
    (fun _ => false) (fun _ _ => false) true (fun _ => none) 0).1.mpr rfl

/-- C7: for every otherwise-valid configuration (credentials resolve and
bucket, prefix and region are non-empty) whose endpoint is non-empty and ends
with the default cloud-storage domain suffix `amazonaws.com`, configuration
building fails with the endpoint configuration error rather than producing a
sink configuration. -/
theorem endpoint_aws_rejected (accessID secretKey credential pre bucket region
    compress endp acb ll tz : String) (sg : String → Bool)
    (st : String → String → Bool) (ev : Bool) (lo : String → Option Int)
    (loc : Int) (creds : Credentials)
    (hcred : GetCredentials accessID secretKey credential sg st ev =
      Except.ok creds)
    (hb : bucket ≠ "") (hp : pre ≠ "") (hr : region ≠ "") (hne : endp ≠ "")
    (hsuf : strHasSuffix endp "amazonaws.com" = true) :
    getS3Config accessID secretKey credential pre bucket region compress endp
        acb ll tz sg st ev lo loc =
      Except.error "Endpoint is not supported for AWS S3. This parameter is intended for S3 compatible services. Use Region instead." := by
  unfold getS3Config
  rw [hcred]
  simp [hb, hp, hr, hne, hsuf]

/-- Witness for C7 at a concrete configuration with endpoint
`s3.amazonaws.com`. -/
theorem endpoint_aws_rejected_witness :
    getS3Config "ak" "sk" "" "pre" "buck" "reg" "" "s3.amazonaws.com" "" "" ""
        (fun _ => false) (fun _ _ => true) false (fun _ => none) 0 =
      Except.error "Endpoint is not supported for AWS S3. This parameter is intended for S3 compatible services. Use Region instead." :=
  endpoint_aws_rejected "ak" "sk" "" "pre" "buck" "reg" "" "s3.amazonaws.com"
    "" "" "" (fun _ => false) (fun _ _ => true) false (fun _ => none) 0
    (Credentials.static "ak" "sk") rfl (by decide) (by decide) (by decide)
    (by decide) (by decide)

/-- C8: during configuration building, an unparsable auto-bucket-creation
value defaults to `false` without producing an error (the built
configuration's flag is the parse result defaulted to `false`, and success or
failure of building is independent of that string), an empty log level
defaults to `info`, an empty time zone defaults to the process-local zone, and
an unparsable non-empty log level or time zone makes building fail with the
corresponding fatal configuration error. -/
theorem config_parse_defaults (accessID secretKey credential pre bucket region
    compress endp acb acb' ll tz : String) (sg : String → Bool)
    (st : String → String → Bool) (ev : Bool) (lo : String → Option Int)
    (loc : Int) (creds : Credentials) :
    ((getS3Config accessID secretKey credential pre bucket region compress
        endp acb ll tz sg st ev lo loc).map s3Config.autoCreateBucket =
      (getS3Config accessID secretKey credential pre bucket region compress
        endp acb ll tz sg st ev lo loc).map
          (fun _ => (ParseBool acb).getD false)) ∧
    ((getS3Config accessID secretKey credential pre bucket region compress
        endp acb ll tz sg st ev lo loc).isOk =
      (getS3Config accessID secretKey credential pre bucket region compress
        endp acb' ll tz sg st ev lo loc).isOk) ∧
    ((getS3Config accessID secretKey credential pre bucket region compress
        endp acb "" tz sg st ev lo loc).map s3Config.logLevel =
      (getS3Config accessID secretKey credential pre bucket region compress
        endp acb "" tz sg st ev lo loc).map (fun _ => Level.info)) ∧
    ((getS3Config accessID secretKey credential pre bucket region compress
        endp acb ll "" sg st ev lo loc).map s3Config.location =
      (getS3Config accessID secretKey credential pre bucket region compress
        endp acb ll "" sg st ev lo loc).map (fun _ => loc)) ∧
    (GetCredentials accessID secretKey credential sg st ev = Except.ok creds →
      bucket ≠ "" → pre ≠ "" → region ≠ "" →
      ¬(endp ≠ "" ∧ strHasSuffix endp "amazonaws.com" = true) →
      ll ≠ "" → ParseLevel ll = none →
      getS3Config accessID secretKey credential pre bucket region compress
          endp acb ll tz sg st ev lo loc =
        Except.error ("invalid log level: " ++ ll)) ∧
    (GetCredentials accessID secretKey credential sg st ev = Except.ok creds →
      bucket ≠ "" → pre ≠ "" → region ≠ "" →
      ¬(endp ≠ "" ∧ strHasSuffix endp "amazonaws.com" = true) →
      (∃ lvl, ParseLevel (if ll = "" then "info" else ll) = some lvl) →
      tz ≠ "" → lo tz = none →
      getS3Config accessID secretKey credential pre bucket region compress
          endp acb ll tz sg st ev lo loc =
        Except.error ("invalid timeZone: " ++ tz)) := by
  have hinfo : ParseLevel "info" = some Level.info := rfl
  refine ⟨?_, ?_, ?_, ?_, ?_, ?_⟩
  · unfold getS3Config
    cases GetCredentials accessID secretKey credential sg st ev with
    | error e => rfl
    | ok creds' =>
      cases hab : ParseBool acb <;>
        by_cases hb : bucket = "" <;>
        by_cases hp : pre = "" <;>
        by_cases hr : region = "" <;>
        by_cases he : endp ≠ "" ∧ strHasSuffix endp "amazonaws.com" = true <;>
        cases hpl : ParseLevel (if ll = "" then "info" else ll) <;>
        by_cases ht : tz ≠ "" <;>
        cases hlo : lo tz <;>
        simp [hab, hb, hp, hr, he, hpl, ht, hlo, Except.map, Option.getD]
  · unfold getS3Config
    cases GetCredentials accessID secretKey credential sg st ev with
    | error e => rfl
    | ok creds' =>
      by_cases hb : bucket = "" <;>
        by_cases hp : pre = "" <;>
        by_cases hr : region = "" <;>
        by_cases he : endp ≠ "" ∧ strHasSuffix endp "amazonaws.com" = true <;>
        cases hpl : ParseLevel (if ll = "" then "info" else ll) <;>
        by_cases ht : tz ≠ "" <;>
        cases hlo : lo tz <;>
        simp [hb, hp, hr, he, hpl, ht, hlo, Except.isOk] <;>
        rfl
  · unfold getS3Config
    cases GetCredentials accessID secretKey credential sg st ev with
    | error e => rfl
    | ok creds' =>
      by_cases hb : bucket = "" <;>
        by_cases hp : pre = "" <;>
        by_cases hr : region = "" <;>
        by_cases he : endp ≠ "" ∧ strHasSuffix endp "amazonaws.com" = true <;>
        by_cases ht : tz ≠ "" <;>
        cases hlo : lo tz <;>
        simp [hb, hp, hr, he, ht, hlo, hinfo, Except.map]
  · unfold getS3Config
    cases GetCredentials accessID secretKey credential sg st ev with
    | error e => rfl
    | ok creds' =>
      by_cases hb : bucket = "" <;>
        by_cases hp : pre = "" <;>
        by_cases hr : region = "" <;>
        by_cases he : endp ≠ "" ∧ strHasSuffix endp "amazonaws.com" = true <;>
        cases hpl : ParseLevel (if ll = "" then "info" else ll) <;>
        simp [hb, hp, hr, he, hpl, Except.map]
  · intro hcred hb hp hr he hllne hll
    unfold getS3Config
    rw [hcred]
    simp [hb, hp, hr, he, hllne, hll]
  · intro hcred hb hp hr he hlvl htz hlo
    obtain ⟨lvl, hpl⟩ := hlvl
    unfold getS3Config
    rw [hcred]
    simp [hb, hp, hr, he, hpl, htz, hlo]

/-- Witness for C8: at concrete configurations, an unparsable
auto-bucket-creation string yields a successful build with the flag `false`,
an unparsable log level and an unknown time zone each yield the corresponding
fatal error. -/
theorem config_parse_defaults_witness :
    ((getS3Config "ak" "sk" "" "pre" "buck" "reg" "" "" "not-a-bool" "" ""
        (fun _ => false) (fun _ _ => true) false (fun _ => none) 0).map
          s3Config.autoCreateBucket =
      (getS3Config "ak" "sk" "" "pre" "buck" "reg" "" "" "not-a-bool" "" ""
        (fun _ => false) (fun _ _ => true) false (fun _ => none) 0).map
          (fun _ => (ParseBool "not-a-bool").getD false)) ∧
    (getS3Config "ak" "sk" "" "pre" "buck" "reg" "" "" "" "loud" ""
        (fun _ => false) (fun _ _ => true) false (fun _ => none) 0 =
      Except.error ("invalid log level: " ++ "loud")) ∧
    (getS3Config "ak" "sk" "" "pre" "buck" "reg" "" "" "" "" "Mars/Olympus"
        (fun _ => false) (fun _ _ => true) false (fun _ => none) 0 =
      Except.error ("invalid timeZone: " ++ "Mars/Olympus")) :=
  ⟨(config_parse_defaults "ak" "sk" "" "pre" "buck" "reg" "" "" "not-a-bool"
      "x" "" "" (fun _ => false) (fun _ _ => true) false (fun _ => none) 0
      (Credentials.static "ak" "sk")).1,
   (config_parse_defaults "ak" "sk" "" "pre" "buck" "reg" "" "" "" "x" "loud"
      "" (fun _ => false) (fun _ _ => true) false (fun _ => none) 0
      (Credentials.static "ak" "sk")).2.2.2.2.1 rfl (by decide) (by decide)
      (by decide) (by decide) (by decide) rfl,
   (config_parse_defaults "ak" "sk" "" "pre" "buck" "reg" "" "" "" "x" ""
      "Mars/Olympus" (fun _ => false) (fun _ _ => true) false (fun _ => none)
      0 (Credentials.static "ak" "sk")).2.2.2.2.2 rfl (by decide) (by decide)
      (by decide) (by decide) ⟨Level.info, rfl⟩ (by decide) rfl⟩

end FluentBitGoS3
